import Mathlib

/-!
Verification of the aperture-photometry core of the ObsAstro repository
(`aperture_photometry.py`), embedded shallowly in Lean 4.

Python floats are modelled as real numbers, except where `np.log10`
produces IEEE non-finite results (NaN for negative argument, −∞ for zero
argument); those cases are made explicit through the `Flt` type below.
NumPy's vectorised column arithmetic is modelled by `List.map` and
`List.zipWith` over the table rows.
-/

namespace ObsAstro

/-- Result of a NumPy floating-point computation: either a finite real
value or one of the IEEE non-finite outcomes (`nan`, `+inf`, `-inf`)
that `np.log10` produces on non-positive input. -/
inductive Flt where
  | fin (x : ℝ)
  | nan
  | inf
  | ninf

/-- `np.log10`: NaN on negative input (with only a runtime warning),
−∞ at zero (warning again), and the real base-10 logarithm on positive
input. -/
noncomputable def np_log10 (x : ℝ) : Flt :=
  if x < 0 then Flt.nan
  else if x = 0 then Flt.ninf
  else Flt.fin (Real.logb 10 x)

/-- `get_magnitude(flux, zmag=25.0)` from `aperture_photometry.py` line 19-20:
`-2.5*np.log10(flux) + zmag`.  IEEE propagation through the affine
expression: `-2.5*nan + z = nan`, `-2.5*(-inf) + z = +inf`,
`-2.5*(+inf) + z = -inf`. -/
noncomputable def get_magnitude (flux : ℝ) (zmag : ℝ := 25.0) : Flt :=
  match np_log10 flux with
  | Flt.fin l => Flt.fin (-2.5 * l + zmag)
  | Flt.nan => Flt.nan
  | Flt.ninf => Flt.inf
  | Flt.inf => Flt.ninf

/-- The image: a 2-D grid of intensity samples (numpy array `imdata`). -/
abbrev Image := List (List ℝ)

/-- One row of the `phot_table` returned by photutils
`aperture_photometry(imdata, [apertures, annulus])`: the source centre
and the two area-weighted sums (`aperture_sum_0` for the circular
aperture, `aperture_sum_1` for the annulus). -/
structure PhotRow where
  xcenter : ℝ
  ycenter : ℝ
  aperture_sum_0 : ℝ
  aperture_sum_1 : ℝ

/-- A summation collaborator for a circular aperture: given the image, a
centre position and the radius, return the area-weighted sum of the
intensities inside the circle.  The actual summation is photutils code,
external to the repository, so it is kept abstract. -/
abbrev CircSum := Image → ℝ × ℝ → ℝ → ℝ

/-- A summation collaborator for a circular annulus: image, centre,
inner radius, outer radius ↦ area-weighted sum inside the ring. -/
abbrev AnnSum := Image → ℝ × ℝ → ℝ → ℝ → ℝ

/-- Modelled from the spec: photutils' `CircularAperture.area`, the
geometric area `π·r²` of the circle (external collaborator, not
repository code). -/
noncomputable def aperture_area (r : ℝ) : ℝ := Real.pi * r ^ 2

/-- Modelled from the spec: photutils' `CircularAnnulus.area`, the
geometric area `π·(r_out² − r_in²)` of the ring (external collaborator,
not repository code). -/
noncomputable def annulus_area (r_in r_out : ℝ) : ℝ :=
  Real.pi * (r_out ^ 2 - r_in ^ 2)

/-- Modelled from the spec: the photutils `aperture_photometry` contract
(line 89 of `aperture_photometry.py`) — one output row per input
position, in input order, carrying the aperture sum and the annulus sum
for that position.  The summation itself stays abstract. -/
def phot_table (circSum : CircSum) (annSum : AnnSum) (imdata : Image)
    (positions : List (ℝ × ℝ)) (r_a r_in r_out : ℝ) : List PhotRow :=
  positions.map fun p =>
    ⟨p.1, p.2, circSum imdata p r_a, annSum imdata p r_in r_out⟩

/-- Line 94: `mean_bkg = phot_table['aperture_sum_1']/annulus.area`,
a vectorised division of the annulus-sum column by the annulus area. -/
noncomputable def mean_bkg (tbl : List PhotRow) (annArea : ℝ) : List ℝ :=
  tbl.map fun r => r.aperture_sum_1 / annArea

/-- Line 98: `bkg_signal = mean_bkg * apertures.area`. -/
noncomputable def bkg_signal (tbl : List PhotRow) (annArea apArea : ℝ) : List ℝ :=
  (mean_bkg tbl annArea).map fun m => m * apArea

/-- Line 99: `source_counts = phot_table['aperture_sum_0'] - bkg_signal`,
an element-wise column subtraction. -/
noncomputable def source_counts (tbl : List PhotRow) (annArea apArea : ℝ) : List ℝ :=
  List.zipWith (fun r b => r.aperture_sum_0 - b) tbl
    (bkg_signal tbl annArea apArea)

/-- Line 102: `count_rate = source_counts/imheader['EXPTIME']`. -/
noncomputable def count_rate (tbl : List PhotRow) (annArea apArea exptime : ℝ) : List ℝ :=
  (source_counts tbl annArea apArea).map fun s => s / exptime

/-- Line 103: `mag = get_magnitude(count_rate)` — the default zero point
25.0 is used, elementwise over the column. -/
noncomputable def mag (tbl : List PhotRow) (annArea apArea exptime : ℝ) :
    List Flt :=
  (count_rate tbl annArea apArea exptime).map fun c => get_magnitude c

/-- A `phot_table` row after lines 105-106 appended the derived
`count_rate` and `mag` columns. -/
structure PhotRowFull extends PhotRow where
  count_rate : ℝ
  mag : Flt

/-- The whole photometry computation of lines 87-106: photutils
summation, background estimate, background subtraction, count rate and
magnitude, with the derived columns appended to the table. -/
noncomputable def run_photometry (circSum : CircSum) (annSum : AnnSum)
    (imdata : Image) (positions : List (ℝ × ℝ))
    (r_a r_in r_out exptime : ℝ) : List PhotRowFull :=
  let tbl := phot_table circSum annSum imdata positions r_a r_in r_out
  let annArea := annulus_area r_in r_out
  let apArea := aperture_area r_a
  List.zipWith (fun (r : PhotRow) (cm : ℝ × Flt) => ⟨r, cm.1, cm.2⟩) tbl
    ((count_rate tbl annArea apArea exptime).zip
      (mag tbl annArea apArea exptime))

/-- The script-level state read by lines 87-106: the loaded image and
the detected source positions.  Every statement in that region binds a
fresh name or adds a column to the (fresh) `phot_table`; none assigns to
`imdata` or `positions`. -/
structure ScriptState where
  imdata : Image
  positions : List (ℝ × ℝ)

/-- Lines 87-106 as a state transformer: the photometry block reads
`imdata` and `positions` and produces the finished table; the inputs are
only read, never written. -/
noncomputable def run_script (circSum : CircSum) (annSum : AnnSum)
    (s : ScriptState) (r_a r_in r_out exptime : ℝ) :
    ScriptState × List PhotRowFull :=
  (s, run_photometry circSum annSum s.imdata s.positions r_a r_in r_out exptime)

/-- Line 57: `seeing = 5.0`. -/
noncomputable def seeing : ℝ := 5.0

/-- Line 72: `r_a = 3*seeing`. -/
noncomputable def script_r_a : ℝ := 3 * seeing

/-- Line 75: `r_in = r_a + 3`. -/
noncomputable def script_r_in : ℝ := script_r_a + 3

/-- Line 76: `r_out = r_in + 14`. -/
noncomputable def script_r_out : ℝ := script_r_in + 14

end ObsAstro

namespace ObsAstro

/-- On positive flux `np.log10` is the real base-10 logarithm, so
`get_magnitude` lands in the finite branch. -/
lemma get_magnitude_of_pos (c z : ℝ) (h : 0 < c) :
    get_magnitude c z = Flt.fin (-2.5 * Real.logb 10 c + z) := by
  unfold get_magnitude np_log10
  rw [if_neg (not_lt.mpr h.le), if_neg h.ne']

/-- On negative flux `np.log10` is NaN and the affine expression
propagates it. -/
lemma get_magnitude_of_neg (c z : ℝ) (h : c < 0) :
    get_magnitude c z = Flt.nan := by
  unfold get_magnitude np_log10
  rw [if_pos h]

/-- At zero flux `np.log10` is −∞ and `-2.5 * (-inf) + z = +inf`. -/
lemma get_magnitude_of_zero (z : ℝ) : get_magnitude 0 z = Flt.inf := by
  unfold get_magnitude np_log10
  rw [if_neg (lt_irrefl 0), if_pos rfl]

end ObsAstro

namespace ObsAstro

/-- C2: for every positive `count_rate` and every zero point, the
instrumental magnitude is `-2.5·log10(count_rate) + zero_point`, and
when the zero point is not supplied the default `25.0` is used. -/
theorem get_magnitude_formula_default (c z : ℝ) (h : 0 < c) :
    get_magnitude c z = Flt.fin (-2.5 * Real.logb 10 c + z) ∧
    get_magnitude c = Flt.fin (-2.5 * Real.logb 10 c + 25.0) :=
  ⟨get_magnitude_of_pos c z h, get_magnitude_of_pos c 25.0 h⟩

/-- Witness for C2 at the concrete flux 100: `log10 100 = 2`, so the
magnitude at the explicit zero point 25 is 20. -/
theorem get_magnitude_formula_default_witness :
    (0:ℝ) < 100 ∧ get_magnitude 100 25 = Flt.fin 20 := by
  refine ⟨by norm_num, ((get_magnitude_formula_default 100 25 (by norm_num)).1).trans ?_⟩
  have h2 : Real.logb 10 100 = 2 := by
    have h100 : (100 : ℝ) = 10 ^ (2 : ℕ) := by norm_num
    rw [h100, Real.logb_pow, Real.logb_self_eq_one (by norm_num)]
    norm_num
  rw [h2]; norm_num

/-- C3 counterexample: at the non-positive count rate −450 the code
returns the silent NaN float (np.log10 of a negative number), not an
error of any kind — the script defines no DomainError and numpy only
emits a runtime warning. -/
theorem get_magnitude_neg_returns_nan :
    (-450 : ℝ) ≤ 0 ∧ get_magnitude (-450) 25 = Flt.nan :=
  ⟨by norm_num, get_magnitude_of_neg (-450) 25 (by norm_num)⟩

/-- C3 amended: for `count_rate ≤ 0` the magnitude computation never
produces a finite numeric value, and no error is raised: a negative
count rate silently yields NaN, a zero count rate yields +∞
(`-2.5 · (−∞) + z`). -/
theorem get_magnitude_nonpos_silent (c z : ℝ) (h : c ≤ 0) :
    (∀ x : ℝ, get_magnitude c z ≠ Flt.fin x) ∧
    (c < 0 → get_magnitude c z = Flt.nan) ∧
    (c = 0 → get_magnitude c z = Flt.inf) := by
  rcases h.lt_or_eq with hlt | heq
  · exact ⟨fun x hx => by rw [get_magnitude_of_neg c z hlt] at hx; exact Flt.noConfusion hx,
      fun _ => get_magnitude_of_neg c z hlt, fun h0 => absurd h0 hlt.ne⟩
  · subst heq
    exact ⟨fun x hx => by rw [get_magnitude_of_zero z] at hx; exact Flt.noConfusion hx,
      fun h0 => absurd h0 (lt_irrefl 0), fun _ => get_magnitude_of_zero z⟩

/-- Witness for the amended C3 at count rate −450. -/
theorem get_magnitude_nonpos_silent_witness :
    (-450 : ℝ) ≤ 0 ∧
    ((∀ x : ℝ, get_magnitude (-450) 25 ≠ Flt.fin x) ∧
      ((-450 : ℝ) < 0 → get_magnitude (-450) 25 = Flt.nan) ∧
      ((-450 : ℝ) = 0 → get_magnitude (-450) 25 = Flt.inf)) :=
  ⟨by norm_num, get_magnitude_nonpos_silent (-450) 25 (by norm_num)⟩

/-- C7: for a fixed zero point the magnitude is strictly decreasing in
the count rate: a strictly larger positive count rate gives a strictly
smaller (finite) magnitude. -/
theorem get_magnitude_strict_anti (c1 c2 z : ℝ) (h1 : 0 < c1) (h12 : c1 < c2) :
    ∃ m1 m2 : ℝ, get_magnitude c1 z = Flt.fin m1 ∧
      get_magnitude c2 z = Flt.fin m2 ∧ m2 < m1 := by
  refine ⟨-2.5 * Real.logb 10 c1 + z, -2.5 * Real.logb 10 c2 + z,
    get_magnitude_of_pos c1 z h1, get_magnitude_of_pos c2 z (h1.trans h12), ?_⟩
  have hlog : Real.logb 10 c1 < Real.logb 10 c2 :=
    Real.logb_lt_logb (by norm_num) h1 h12
  linarith

/-- Witness for C7 at count rates 10 < 100. -/
theorem get_magnitude_strict_anti_witness :
    (0:ℝ) < 10 ∧ (10:ℝ) < 100 ∧
    ∃ m1 m2 : ℝ, get_magnitude 10 25 = Flt.fin m1 ∧
      get_magnitude 100 25 = Flt.fin m2 ∧ m2 < m1 :=
  ⟨by norm_num, by norm_num, get_magnitude_strict_anti 10 100 25 (by norm_num) (by norm_num)⟩

/-- C10: the zero point enters the magnitude only additively: for a
fixed positive flux, magnitudes at zero points `z1` and `z2` differ by
`z1 − z2`, and the magnitude at zero point `z1` is the magnitude at zero
point 0 shifted by `z1`. -/
theorem get_magnitude_zero_point_additive (c z1 z2 : ℝ) (h : 0 < c) :
    ∃ m1 m2 m0 : ℝ, get_magnitude c z1 = Flt.fin m1 ∧
      get_magnitude c z2 = Flt.fin m2 ∧ get_magnitude c 0 = Flt.fin m0 ∧
      m1 - m2 = z1 - z2 ∧ m1 = m0 + z1 := by
  exact ⟨-2.5 * Real.logb 10 c + z1, -2.5 * Real.logb 10 c + z2,
    -2.5 * Real.logb 10 c + 0, get_magnitude_of_pos c z1 h,
    get_magnitude_of_pos c z2 h, get_magnitude_of_pos c 0 h,
    by ring, by ring⟩

/-- Witness for C10 at flux 100, zero points 25 and 20. -/
theorem get_magnitude_zero_point_additive_witness :
    (0:ℝ) < 100 ∧
    ∃ m1 m2 m0 : ℝ, get_magnitude 100 25 = Flt.fin m1 ∧
      get_magnitude 100 20 = Flt.fin m2 ∧ get_magnitude 100 0 = Flt.fin m0 ∧
      m1 - m2 = (25:ℝ) - 20 ∧ m1 = m0 + 25 :=
  ⟨by norm_num, get_magnitude_zero_point_additive 100 25 20 (by norm_num)⟩

end ObsAstro

namespace ObsAstro

/-- The vectorised column pipeline collapses to one map over the rows:
each row's background-subtracted signal is
`aperture_sum_0 − aperture_sum_1 / annArea * apArea`. -/
lemma source_counts_eq_map (tbl : List PhotRow) (annArea apArea : ℝ) :
    source_counts tbl annArea apArea =
      tbl.map fun r => r.aperture_sum_0 - r.aperture_sum_1 / annArea * apArea := by
  unfold source_counts bkg_signal mean_bkg
  induction tbl with
  | nil => rfl
  | cons r t ih => simpa using ih

/-- C1: every row's background-subtracted signal is the aperture sum
minus the per-pixel background estimate (the `mean_bkg` column entry)
times the aperture area; in particular a row with aperture sum 1000,
annulus sum 400, annulus area 40 (so `mean_bkg = 10`) and aperture area
10 yields 900. -/
theorem source_counts_formula :
    (∀ (tbl : List PhotRow) (annArea apArea : ℝ),
      source_counts tbl annArea apArea =
        List.zipWith (fun (r : PhotRow) (m : ℝ) => r.aperture_sum_0 - m * apArea)
          tbl (mean_bkg tbl annArea)) ∧
    source_counts [⟨0, 0, 1000, 400⟩] 40 10 = [900] := by
  constructor
  · intro tbl annArea apArea
    unfold source_counts bkg_signal mean_bkg
    induction tbl with
    | nil => rfl
    | cons r t ih => simpa using ih
  · rw [source_counts_eq_map]
    norm_num

/-- C4: every row's per-pixel background estimate is the annulus sum
divided by the annulus geometric area. -/
theorem mean_bkg_per_row (tbl : List PhotRow) (annArea : ℝ) (i : ℕ)
    (hi : i < tbl.length) :
    (mean_bkg tbl annArea).get ⟨i, by simpa [mean_bkg] using hi⟩ =
      (tbl.get ⟨i, hi⟩).aperture_sum_1 / annArea := by
  simp [mean_bkg]

/-- Witness for C4: a single row with annulus sum 400 and annulus area
40 gives a background estimate of 10 per pixel. -/
theorem mean_bkg_per_row_witness :
    (mean_bkg [⟨0, 0, 1000, 400⟩] 40).get ⟨0, by norm_num [mean_bkg]⟩ = 10 :=
  (mean_bkg_per_row [⟨0, 0, 1000, 400⟩] 40 0 (by norm_num)).trans (by norm_num)

end ObsAstro

namespace ObsAstro

/-- The full pipeline of lines 87-106 collapses to one map over the
input positions: row `i` is computed entirely from position `i`. -/
lemma run_photometry_eq_map (csum : CircSum) (asum : AnnSum) (im : Image)
    (ps : List (ℝ × ℝ)) (r_a r_in r_out t : ℝ) :
    run_photometry csum asum im ps r_a r_in r_out t =
      ps.map fun p =>
        ⟨⟨p.1, p.2, csum im p r_a, asum im p r_in r_out⟩,
          (csum im p r_a - asum im p r_in r_out / annulus_area r_in r_out *
            aperture_area r_a) / t,
          get_magnitude ((csum im p r_a - asum im p r_in r_out /
            annulus_area r_in r_out * aperture_area r_a) / t)⟩ := by
  simp only [run_photometry, mag, count_rate, source_counts, bkg_signal,
    mean_bkg, phot_table]
  induction ps with
  | nil => rfl
  | cons p ps ih => simpa using ih

/-- C5: the photometry output has exactly one row per input position,
and row `i` is built from position `i`: its centre is position `i` and
its sums are the aperture and annulus summations at position `i`. -/
theorem run_photometry_rows_match_positions (csum : CircSum) (asum : AnnSum)
    (im : Image) (ps : List (ℝ × ℝ)) (r_a r_in r_out t : ℝ) :
    (run_photometry csum asum im ps r_a r_in r_out t).length = ps.length ∧
    ∀ i (hi : i < ps.length),
      ((run_photometry csum asum im ps r_a r_in r_out t).get
          ⟨i, by rw [run_photometry_eq_map]; simpa using hi⟩).xcenter =
        (ps.get ⟨i, hi⟩).1 ∧
      ((run_photometry csum asum im ps r_a r_in r_out t).get
          ⟨i, by rw [run_photometry_eq_map]; simpa using hi⟩).ycenter =
        (ps.get ⟨i, hi⟩).2 ∧
      ((run_photometry csum asum im ps r_a r_in r_out t).get
          ⟨i, by rw [run_photometry_eq_map]; simpa using hi⟩).aperture_sum_0 =
        csum im (ps.get ⟨i, hi⟩) r_a ∧
      ((run_photometry csum asum im ps r_a r_in r_out t).get
          ⟨i, by rw [run_photometry_eq_map]; simpa using hi⟩).aperture_sum_1 =
        asum im (ps.get ⟨i, hi⟩) r_in r_out := by
  constructor
  · rw [run_photometry_eq_map, List.length_map]
  · intro i hi
    refine ⟨?_, ?_, ?_, ?_⟩ <;>
      simp [run_photometry_eq_map, List.get_eq_getElem, List.getElem_map]

/-- Witness for C5: one concrete position produces exactly one row whose
centre and sums come from that position. -/
theorem run_photometry_rows_match_positions_witness :
    (run_photometry (fun _ _ _ => 7) (fun _ _ _ _ => 3) [[0]] [(1, 2)]
        15 18 32 2).length = 1 ∧
    ((run_photometry (fun _ _ _ => 7) (fun _ _ _ _ => 3) [[0]] [(1, 2)]
        15 18 32 2).get ⟨0, by rw [run_photometry_eq_map]; simp⟩).xcenter = 1 := by
  have h := run_photometry_rows_match_positions (fun _ _ _ => 7)
    (fun _ _ _ _ => 3) [[0]] [(1, 2)] 15 18 32 2
  exact ⟨h.1, (h.2 0 (by norm_num)).1⟩

/-- C6 counterexample: with `r_in = 5 ≤ r_aperture = 5` the computation
does not raise anything — it performs both summations and returns an
ordinary row (here with aperture sum 7 and annulus sum 3). -/
theorem phot_table_accepts_bad_geometry :
    (5 : ℝ) ≤ 5 ∧
    phot_table (fun _ _ _ => 7) (fun _ _ _ _ => 3) [[0]] [(1, 2)] 5 5 10 =
      [⟨1, 2, 7, 3⟩] :=
  ⟨le_refl 5, rfl⟩

/-- C6 amended: the script performs no radius-ordering validation: even
when `r_in ≤ r_aperture` the summations are performed and one row per
position is returned; no InvalidGeometry error exists in the code.  In
the script itself `r_in = r_aperture + 3`, so `r_aperture < r_in`
always holds and the bad configuration never arises. -/
theorem phot_table_no_geometry_validation (csum : CircSum) (asum : AnnSum)
    (im : Image) (ps : List (ℝ × ℝ)) (r_a r_in r_out : ℝ) (_hle : r_in ≤ r_a) :
    phot_table csum asum im ps r_a r_in r_out =
      ps.map (fun p => ⟨p.1, p.2, csum im p r_a, asum im p r_in r_out⟩) ∧
    script_r_a < script_r_in := by
  refine ⟨rfl, ?_⟩
  unfold script_r_in
  linarith

/-- Witness for the amended C6 at the degenerate radii `r_a = r_in = 5`. -/
theorem phot_table_no_geometry_validation_witness :
    (5 : ℝ) ≤ 5 ∧
    (phot_table (fun _ _ _ => 7) (fun _ _ _ _ => 3) [[0]] [(1, 2)] 5 5 10 =
        [(1, 2)].map (fun p : ℝ × ℝ => ⟨p.1, p.2, 7, 3⟩) ∧
      script_r_a < script_r_in) :=
  ⟨le_refl 5, phot_table_no_geometry_validation (fun _ _ _ => 7)
    (fun _ _ _ _ => 3) [[0]] [(1, 2)] 5 5 10 (le_refl 5)⟩

/-- C8: the computation is deterministic — equal images, positions,
radii and exposure times give identical result rows, including the
intermediate `mean_bkg` and `source_counts` columns. -/
theorem run_photometry_deterministic (csum : CircSum) (asum : AnnSum)
    (im1 im2 : Image) (ps1 ps2 : List (ℝ × ℝ))
    (ra1 ra2 ri1 ri2 ro1 ro2 t1 t2 : ℝ)
    (him : im1 = im2) (hps : ps1 = ps2) (hra : ra1 = ra2) (hri : ri1 = ri2)
    (hro : ro1 = ro2) (ht : t1 = t2) :
    run_photometry csum asum im1 ps1 ra1 ri1 ro1 t1 =
      run_photometry csum asum im2 ps2 ra2 ri2 ro2 t2 ∧
    mean_bkg (phot_table csum asum im1 ps1 ra1 ri1 ro1)
        (annulus_area ri1 ro1) =
      mean_bkg (phot_table csum asum im2 ps2 ra2 ri2 ro2)
        (annulus_area ri2 ro2) ∧
    source_counts (phot_table csum asum im1 ps1 ra1 ri1 ro1)
        (annulus_area ri1 ro1) (aperture_area ra1) =
      source_counts (phot_table csum asum im2 ps2 ra2 ri2 ro2)
        (annulus_area ri2 ro2) (aperture_area ra2) := by
  subst him hps hra hri hro ht
  exact ⟨rfl, rfl, rfl⟩

/-- Witness for C8: two runs on the same concrete inputs coincide. -/
theorem run_photometry_deterministic_witness :
    ([[0]] : Image) = [[0]] ∧
    run_photometry (fun _ _ _ => 7) (fun _ _ _ _ => 3) [[0]] [(1, 2)]
        15 18 32 2 =
      run_photometry (fun _ _ _ => 7) (fun _ _ _ _ => 3) [[0]] [(1, 2)]
        15 18 32 2 :=
  ⟨rfl, (run_photometry_deterministic (fun _ _ _ => 7) (fun _ _ _ _ => 3)
    [[0]] [[0]] [(1, 2)] [(1, 2)] 15 15 18 18 32 32 2 2
    rfl rfl rfl rfl rfl rfl).1⟩

/-- C9: the photometry block only reads the image and the positions:
after the run the script state holds the same image grid and the same
position list it started with. -/
theorem run_script_preserves_inputs (csum : CircSum) (asum : AnnSum)
    (s : ScriptState) (r_a r_in r_out t : ℝ) :
    (run_script csum asum s r_a r_in r_out t).1.imdata = s.imdata ∧
    (run_script csum asum s r_a r_in r_out t).1.positions = s.positions :=
  ⟨rfl, rfl⟩

end ObsAstro
